import Mathlib

/-!
Verification development for the QuickView server core (`server.js`).

The server's data model and the operations the specification talks about are
embedded shallowly below:

* JavaScript strings are Lean `String`s; the string primitives the server uses
  (`startsWith`, `endsWith`, `length`, `toLowerCase`, and Node's `path`
  helpers) are modelled as structurally recursive functions over the
  character list `String.data`, so that every definition evaluates inside the
  kernel.
* The `/api/execute/python` route is split into its admission/validation
  pipeline (`pythonExecute`, everything up to the `spawn` call) and the two
  child-process callbacks (`pythonOnClose`, `pythonOnError`).
* The chokidar callback `handleFileChange` is embedded as the payload it
  emits to observers.
* The `/api/file/*` route is `apiFileGet`, over an oracle for
  `fs.existsSync`/`fs.readFileSync`.
* `getFileTree` is embedded over an inductive filesystem shape `FS` that can
  also express `statSync` failures and unreadable (`readdirSync`-throwing)
  directories.
-/

namespace QuickView

/-! ### JavaScript / Node string primitives, modelled on character lists -/

/-- Boolean prefix test on character lists. -/
def isPrefixB : List Char → List Char → Bool
  | [], _ => true
  | _ :: _, [] => false
  | a :: as, b :: bs => a == b && isPrefixB as bs

/-- Model of JavaScript `String.prototype.startsWith`. -/
def startsWithB (s p : String) : Bool := isPrefixB p.data s.data

/-- Model of JavaScript `String.prototype.endsWith`. -/
def endsWithB (s p : String) : Bool := isPrefixB p.data.reverse s.data.reverse

/-- Model of JavaScript `String.prototype.length`: the number of UTF-16 code
units (characters outside the basic multilingual plane count twice). -/
def jsLength (s : String) : Nat :=
  s.data.foldl (fun n c => n + (if c.val < 65536 then 1 else 2)) 0

/-- UTF-8 byte size of a string: the byte count of the text as it arrives in
the request body. -/
def utf8Len (s : String) : Nat :=
  s.data.foldl (fun n c => n + c.utf8Size) 0

/-- ASCII lower-casing of one character (how `toLowerCase` acts on the
extension strings the server lower-cases). -/
def lowerChar (c : Char) : Char :=
  if 65 ≤ c.toNat && c.toNat ≤ 90 then Char.ofNat (c.toNat + 32) else c

/-- Model of `String.prototype.toLowerCase` on extension strings. -/
def lowerStr (s : String) : String := String.mk (s.data.map lowerChar)

/-- Split a character list at `'/'` separators; `cur` is the reversed current
component. -/
def splitSlash : List Char → List Char → List (List Char)
  | [], cur => [cur.reverse]
  | '/' :: rest, cur => cur.reverse :: splitSlash rest []
  | c :: rest, cur => splitSlash rest (c :: cur)

/-- The non-empty `'/'`-separated components of a POSIX path, the view of a
path Node's `path` module works with. -/
def pathParts (s : String) : List (List Char) :=
  (splitSlash s.data []).filter (fun c => c ≠ [])

/-- Join path components with `'/'`. -/
def joinPartsChars : List (List Char) → List Char
  | [] => []
  | [c] => c
  | c :: rest => c ++ '/' :: joinPartsChars rest

/-- Join path components into a path string. -/
def joinParts (l : List (List Char)) : String := String.mk (joinPartsChars l)

/-- Core of Node `path.posix.relative` on resolved paths: drop the common
component prefix, go up with `".."` for what remains of the source and then
down into the target. -/
def relParts : List (List Char) → List (List Char) → List (List Char)
  | f :: fs, t :: ts =>
    if f = t then relParts fs ts
    else List.replicate (fs.length + 1) "..".data ++ (t :: ts)
  | [], ts => ts
  | fs, [] => List.replicate fs.length "..".data

/-- Model of Node `path.relative` for the resolved POSIX paths the watcher
hands to `handleFileChange`. -/
def pathRelative (fromDir toPath : String) : String :=
  joinParts (relParts (pathParts fromDir) (pathParts toPath))

/-- Model of Node `path.join` for the two-argument calls in the server (no
`..` segments occur in those calls). -/
def joinPath (a b : String) : String :=
  if a = "" then b else if b = "" then a else a ++ "/" ++ b

/-- Model of Node `path.basename`: the last non-empty `'/'`-separated
component. -/
def basename (p : String) : String :=
  String.mk ((pathParts p).getLastD [])

/-- Model of Node `path.extname` on a bare file name: the suffix from the
last `'.'`, empty when there is no `'.'` or the only `'.'` is the leading
character of the name. -/
def extname (nm : String) : String :=
  let l := nm.data
  let afterRev := l.reverse.takeWhile (fun c => c ≠ '.')
  if afterRev.length = l.length then ""
  else if afterRev.length + 1 = l.length then ""
  else String.mk ('.' :: afterRev.reverse)

/-! ### Execution sandbox: the `/api/execute/python` route -/

/-- How far a `/api/execute/python` request gets before (or instead of)
spawning the interpreter. -/
inductive ExecOutcome where
  | rateLimited : ExecOutcome
  | invalidInput : ExecOutcome
  | tooLarge : ExecOutcome
  | writeFailed : ExecOutcome
  | spawned : ExecOutcome
deriving DecidableEq

/-- The `/api/execute/python` handler from the start of the request to the
`spawn` call (server source lines 74-120).  `window` is the array stored in
`pythonExecutionCount` for this requester (empty when absent), `now` is
`Date.now()`, `code` is the request's `code` field (`none` for a missing or
non-string value, and the handler also treats the empty string as falsy), and
`writeOk` tells whether `fs.writeFileSync` on the scratch file succeeds.
Returns the outcome together with the array stored back for this requester.
Mirrors the source order: prune, rate check, push the new timestamp, then
validate and stage. -/
def pythonExecute (window : List Nat) (now : Nat) (code : Option String) (writeOk : Bool) :
    ExecOutcome × List Nat :=
  let recentExecutions := window.filter (fun time => now - time < 60000)
  if 5 ≤ recentExecutions.length then
    (.rateLimited, window)
  else
    let stored := recentExecutions ++ [now]
    match code with
    | none => (.invalidInput, stored)
    | some c =>
      if c = "" then (.invalidInput, stored)
      else if 50000 < jsLength c then (.tooLarge, stored)
      else if writeOk then (.spawned, stored)
      else (.writeFailed, stored)

/-- The JSON body (plus HTTP status) written by the execution route's
child-process callbacks. -/
structure PyResponse where
  status : Nat
  success : Bool
  output : String
  error : String
  exitCode : Option Int
deriving DecidableEq

/-- What a child-process callback of the execution route does: its cleanup
behaviour on the scratch file and the response it sends. -/
structure HandlerResult where
  attemptedCleanup : Bool
  removedFile : Bool
  warnedCleanup : Bool
  response : PyResponse
deriving DecidableEq

/-- The `python.on('close', ...)` callback (server source lines 132-146):
unlink the scratch file (warn, and nothing more, if that fails), then answer
with the captured stdout/stderr and the exit code.  `exitCode` is `none` when
the process was terminated by a signal, and `unlinkOk` tells whether
`fs.unlinkSync` succeeds. -/
def pythonOnClose (unlinkOk : Bool) (output stderr : String) (exitCode : Option Int) :
    HandlerResult :=
  { attemptedCleanup := true
    removedFile := unlinkOk
    warnedCleanup := !unlinkOk
    response :=
      { status := 200
        success := exitCode == some 0
        output := output
        error := stderr
        exitCode := exitCode } }

/-- The `python.on('error', ...)` callback (server source lines 149-171, the
branch the source labels `// Handle timeout`): unlink the scratch file (warn,
and nothing more, if that fails), then answer 408 with a fixed timeout
message when `err.code === 'ETIMEDOUT'`, else 500.  `stderr` is the stderr
captured so far; note that the response built here never includes it. -/
def pythonOnError (unlinkOk : Bool) (output stderr : String) (errCode errMessage : String) :
    HandlerResult :=
  { attemptedCleanup := true
    removedFile := unlinkOk
    warnedCleanup := !unlinkOk
    response :=
      if errCode = "ETIMEDOUT" then
        { status := 408
          success := false
          output := output
          error := "Python script execution timed out (30 second limit)"
          exitCode := some (-1) }
      else
        { status := 500
          success := false
          output := output
          error := "Failed to execute Python script: " ++ errMessage
          exitCode := some (-1) } }

/-! ### Change watcher: `handleFileChange` -/

/-- The object emitted to every observer on the `fileChange` channel
(server source lines 255-260). -/
structure FileChangePayload where
  event : String
  path : String
  relativePath : String
  content : Option String
deriving DecidableEq

/-- The `handleFileChange` callback (server source lines 251-264), embedded
as the payload it broadcasts.  `readFileContent` models
`readFileIfExists` (`none` when `fs.readFileSync` throws), `watchDir` is the
watched root, and `filePath` is the path chokidar reported (absolute whenever
the watched root is absolute, which `path.resolve` in the CLI guarantees). -/
def handleFileChange (readFileContent : String → Option String)
    (watchDir event filePath : String) : FileChangePayload :=
  { event := event
    path := filePath
    relativePath := pathRelative watchDir filePath
    content := if event != "unlink" then readFileContent filePath else none }

/-! ### The `/api/file/*` route -/

/-- The extension allowlist of the file route (server source line 47). -/
def allowedExtensions : List String :=
  [".html", ".jsx", ".js", ".py", ".css", ".json", ".md", ".svg", ".txt", ".xml", ".yaml", ".yml"]

/-- Outcome of a `/api/file/*` request. -/
inductive FileApiResult where
  | hiddenDenied : FileApiResult
  | typeDenied : FileApiResult
  | notFound : FileApiResult
  | readFailed : FileApiResult
  | ok (content extension filename pathField : String) : FileApiResult
deriving DecidableEq

/-- The `/api/file/*` handler (server source lines 37-71).  `fsRead` models
the filesystem at `existsSync`/`readFileSync` time: `none` means the path
does not exist, `some none` that it exists but `readFileSync` throws,
`some (some c)` that reading yields `c`.  Mirrors the source order: hidden
check on the basename, extension allowlist, then the filesystem. -/
def apiFileGet (fsRead : String → Option (Option String)) (watchDir requestedPath : String) :
    FileApiResult :=
  let filename := basename requestedPath
  if startsWithB filename "." && !endsWithB filename ".html" then .hiddenDenied
  else
    let ext := lowerStr (extname filename)
    if ext != "" && !(allowedExtensions.contains ext) then .typeDenied
    else
      match fsRead (joinPath watchDir requestedPath) with
      | none => .notFound
      | some none => .readFailed
      | some (some content) => .ok content ext filename requestedPath

/-! ### Tree snapshot builder: `getFileTree` -/

/-- One node of the snapshot `getFileTree` builds (server source lines
288-303): either a file record or a directory record with its sorted
children. -/
inductive Item where
  | fileItem (name path extension : String) (size : Nat) : Item
  | dirItem (name path : String) (children : List Item) : Item

/-- The `name` field of a snapshot node. -/
def Item.name : Item → String
  | .fileItem n _ _ _ => n
  | .dirItem n _ _ => n

/-- Whether a snapshot node has `type: 'directory'`. -/
def Item.isDir : Item → Bool
  | .fileItem _ _ _ _ => false
  | .dirItem _ _ _ => true

/-- The order the sort at the end of `getFileTree` (server source lines
309-312) establishes: directories before files, and inside one kind by name
(`localeCompare` modelled as code-point lexicographic comparison of the
character lists). -/
def itemLe (a b : Item) : Prop :=
  if a.isDir = b.isDir then a.name.data ≤ b.name.data else a.isDir = true

instance : DecidableRel itemLe := fun a b => by
  unfold itemLe; infer_instance

/-- Model of `items.sort(comparator)`: a sort of the item list by `itemLe`. -/
def sortItems (l : List Item) : List Item := l.insertionSort itemLe

/-- Filesystem shapes as `getFileTree` can observe them.  A directory listing
is a `cons`/`nil` sequence of named entries; an entry is a file (with its
`statSync` size), a directory (`readable := false` when `readdirSync` on it
throws), or `statError`, an entry on which `statSync` itself throws. -/
inductive FS where
  | statError : FS
  | file : Nat → FS
  | dir : Bool → FS → FS
  | nil : FS
  | cons : String → FS → FS → FS

/-- The `for (const file of files)` loop of `getFileTree` (server source
lines 280-304) over a directory listing, with `pre` the `prefix` argument.
Entries hidden by the dotfile rule or named `node_modules` are skipped before
`statSync` runs; a `statError` entry makes `statSync` throw, the exception
lands in the `catch` outside the loop, and the items pushed so far are what
remains — the rest of the listing is never visited.  A directory child's
children are the recursive `getFileTree` call: sorted when its `readdirSync`
works, `[]` when it throws.  Constructors in entry position that are not
entries (`nil`/`cons`) are skipped. -/
def scanItems : FS → String → List Item
  | .cons nm ent rest, pre =>
    if startsWithB nm "." && !endsWithB nm ".html" then scanItems rest pre
    else if nm = "node_modules" then scanItems rest pre
    else
      let rel := joinPath pre nm
      match ent with
      | .statError => []
      | .file size => .fileItem nm rel (lowerStr (extname nm)) size :: scanItems rest pre
      | .dir readable entries =>
          .dirItem nm rel (if readable then sortItems (scanItems entries rel) else [])
            :: scanItems rest pre
      | _ => scanItems rest pre
  | _, _ => []

/-- `getFileTree(dir, prefix)` (server source lines 274-313): `[]` when
`readdirSync` throws (unreadable directory or not a directory at all),
otherwise the loop's items sorted. -/
def getFileTree (e : FS) (pre : String) : List Item :=
  match e with
  | .dir true entries => sortItems (scanItems entries pre)
  | _ => []

/-- A snapshot node all of whose directory levels are sorted: children are
pairwise in `itemLe` order and recursively so. -/
inductive SortedItem : Item → Prop where
  | file : ∀ n p e s, SortedItem (.fileItem n p e s)
  | dir : ∀ n p cs, cs.Pairwise itemLe → (∀ c ∈ cs, SortedItem c) →
      SortedItem (.dirItem n p cs)

/-- A name the `getFileTree` loop does not skip: not a dotfile unless it ends
in `.html`, and not `node_modules`. -/
def visibleName (nm : String) : Bool :=
  !(startsWithB nm "." && !endsWithB nm ".html") && nm != "node_modules"

/-- A snapshot node whose name, and recursively every descendant's name,
passed the `getFileTree` exclusion rules. -/
inductive NamesOk : Item → Prop where
  | file : ∀ n p e s, visibleName n = true → NamesOk (.fileItem n p e s)
  | dir : ∀ n p cs, visibleName n = true → (∀ c ∈ cs, NamesOk c) →
      NamesOk (.dirItem n p cs)

/-! ### Facts about the snapshot comparator and sort -/

instance : IsTotal Item itemLe where
  total a b := by
    unfold itemLe
    cases ha : a.isDir <;> cases hb : b.isDir <;> simp [ha, hb]
    · exact le_total _ _
    · exact le_total _ _

instance : IsTrans Item itemLe where
  trans a b c hab hbc := by
    unfold itemLe at hab hbc ⊢
    cases ha : a.isDir <;> cases hb : b.isDir <;> cases hc : c.isDir <;>
      simp_all <;> exact le_trans hab hbc

theorem mem_sortItems {x : Item} {l : List Item} : x ∈ sortItems l ↔ x ∈ l :=
  List.mem_insertionSort itemLe

theorem pairwise_sortItems (l : List Item) : (sortItems l).Pairwise itemLe :=
  List.sorted_insertionSort itemLe l

/-- Every item the `getFileTree` loop produces is recursively sorted. -/
theorem scanItems_sortedItem (fs : FS) (pre : String) :
    ∀ i ∈ scanItems fs pre, SortedItem i := by
  induction fs, pre using scanItems.induct with
  | case1 nm ent rest pre h ih =>
    simpa [scanItems, h] using ih
  | case2 ent rest pre h ih =>
    simpa [scanItems, h] using ih
  | case3 nm rest pre h h2 =>
    simp [scanItems, h, h2]
  | case4 nm rest pre h h2 size ih =>
    intro i hi
    simp [scanItems, h, h2] at hi
    rcases hi with rfl | hi
    · exact SortedItem.file _ _ _ _
    · exact ih i hi
  | case5 nm rest pre h h2 rel readable entries ih ihrest =>
    intro i hi
    simp [scanItems, h, h2] at hi
    rcases hi with rfl | hi
    · refine SortedItem.dir _ _ _ ?_ ?_
      · cases readable
        · simp
        · simpa using pairwise_sortItems _
      · cases readable
        · simp
        · intro c hc
          exact ih c (mem_sortItems.mp (by simpa using hc))
    · exact ihrest i hi
  | case6 nm ent rest pre h h2 hne1 hne2 hne3 ih =>
    cases ent with
    | statError => exact absurd rfl hne1
    | file size => exact absurd rfl (hne2 size)
    | dir r es => exact absurd rfl (hne3 r es)
    | nil => simpa [scanItems, h, h2] using ih
    | cons a b c => simpa [scanItems, h, h2] using ih
  | case7 t x hnc =>
    cases t with
    | cons a b c => exact absurd rfl (hnc a b c)
    | statError => simp [scanItems]
    | file s => simp [scanItems]
    | dir r es => simp [scanItems]
    | nil => simp [scanItems]

/-- Every item the `getFileTree` loop produces has an admissible name, and
recursively so. -/
theorem scanItems_namesOk (fs : FS) (pre : String) :
    ∀ i ∈ scanItems fs pre, NamesOk i := by
  induction fs, pre using scanItems.induct with
  | case1 nm ent rest pre h ih =>
    simpa [scanItems, h] using ih
  | case2 ent rest pre h ih =>
    simpa [scanItems, h] using ih
  | case3 nm rest pre h h2 =>
    simp [scanItems, h, h2]
  | case4 nm rest pre h h2 size ih =>
    intro i hi
    simp [scanItems, h, h2] at hi
    rcases hi with rfl | hi
    · exact NamesOk.file _ _ _ _ (by simp [visibleName, h, h2, bne_iff_ne])
    · exact ih i hi
  | case5 nm rest pre h h2 rel readable entries ih ihrest =>
    intro i hi
    simp [scanItems, h, h2] at hi
    rcases hi with rfl | hi
    · refine NamesOk.dir _ _ _ (by simp [visibleName, h, h2, bne_iff_ne]) ?_
      cases readable
      · simp
      · intro c hc
        exact ih c (mem_sortItems.mp (by simpa using hc))
    · exact ihrest i hi
  | case6 nm ent rest pre h h2 hne1 hne2 hne3 ih =>
    cases ent with
    | statError => exact absurd rfl hne1
    | file size => exact absurd rfl (hne2 size)
    | dir r es => exact absurd rfl (hne3 r es)
    | nil => simpa [scanItems, h, h2] using ih
    | cons a b c => simpa [scanItems, h, h2] using ih
  | case7 t x hnc =>
    cases t with
    | cons a b c => exact absurd rfl (hnc a b c)
    | statError => simp [scanItems]
    | file s => simp [scanItems]
    | dir r es => simp [scanItems]
    | nil => simp [scanItems]

/-- Strictly fewer elements survive a filter that drops a member. -/
theorem length_filter_lt_of_mem {p : Nat → Bool} {l : List Nat} {a : Nat}
    (ha : a ∈ l) (hpa : p a = false) : (l.filter p).length < l.length := by
  induction l with
  | nil => cases ha
  | cons b bs ih =>
    rcases List.mem_cons.mp ha with rfl | hmem
    · rw [List.filter_cons, hpa]
      have := List.length_filter_le p bs
      simpa using Nat.lt_succ_of_le this
    · rw [List.filter_cons]
      cases hb : p b
      · simpa using Nat.lt_succ_of_lt (ih hmem)
      · simpa using Nat.succ_lt_succ (ih hmem)

/-! ### Support definitions for the unreadable-entry analysis (C7) -/

/-- The skip test at the top of the `getFileTree` loop: hidden (dotfile and
not `.html`) or `node_modules`. -/
def entrySkipped (nm : String) : Bool :=
  (startsWithB nm "." && !endsWithB nm ".html") || nm == "node_modules"

/-- Whether `statSync` throws on this entry. -/
def isStatErr : FS → Bool
  | .statError => true
  | _ => false

/-- Concatenation of two directory listings. -/
def listingAppend : FS → FS → FS
  | .cons nm e rest, tail => .cons nm e (listingAppend rest tail)
  | _, tail => tail

/-- A listing every visible entry of which stats successfully (no entry
aborts the loop). -/
def noAbort : FS → Bool
  | .cons nm ent rest => (entrySkipped nm || !isStatErr ent) && noAbort rest
  | _ => true

theorem entrySkipped_false {nm : String} (h : entrySkipped nm = false) :
    (startsWithB nm "." && !endsWithB nm ".html") = false ∧ nm ≠ "node_modules" := by
  unfold entrySkipped at h
  simp only [Bool.or_eq_false_iff, beq_eq_false_iff_ne] at h
  exact h

/-! ### Claim theorems for the snapshot builder -/

/-- C8: at every level of the snapshot builder's output, all directory
children precede all file children and, within each kind, siblings are in
lexicographic name order — the output list is pairwise `itemLe`-ordered and
every item in it is recursively sorted. -/
theorem c8_snapshot_sorted (e : FS) (pre : String) :
    (getFileTree e pre).Pairwise itemLe ∧ ∀ i ∈ getFileTree e pre, SortedItem i := by
  cases e with
  | dir readable entries =>
    cases readable
    · exact ⟨by simp [getFileTree], by simp [getFileTree]⟩
    · exact ⟨pairwise_sortItems _,
        fun i hi => scanItems_sortedItem entries pre i (mem_sortItems.mp hi)⟩
  | statError => exact ⟨by simp [getFileTree], by simp [getFileTree]⟩
  | file s => exact ⟨by simp [getFileTree], by simp [getFileTree]⟩
  | nil => exact ⟨by simp [getFileTree], by simp [getFileTree]⟩
  | cons a b c => exact ⟨by simp [getFileTree], by simp [getFileTree]⟩

/-- Witness for C8 on a concrete tree: the snapshot of a root holding
`b.txt` and a subdirectory `sub` (with `x.txt` inside) lists `sub` first,
and the `sub` node the theorem certifies is recursively sorted. -/
theorem c8_snapshot_sorted_witness :
    SortedItem (Item.dirItem "sub" "sub" [Item.fileItem "x.txt" "sub/x.txt" ".txt" 1]) := by
  refine (c8_snapshot_sorted (FS.dir true (FS.cons "b.txt" (FS.file 2)
      (FS.cons "sub" (FS.dir true (FS.cons "x.txt" (FS.file 1) FS.nil)) FS.nil))) "").2 _ ?_
  rw [show getFileTree (FS.dir true (FS.cons "b.txt" (FS.file 2)
      (FS.cons "sub" (FS.dir true (FS.cons "x.txt" (FS.file 1) FS.nil)) FS.nil))) ""
    = [Item.dirItem "sub" "sub" [Item.fileItem "x.txt" "sub/x.txt" ".txt" 1],
       Item.fileItem "b.txt" "b.txt" ".txt" 2] from rfl]
  exact List.mem_cons_self _ _

/-- C9: every node anywhere in a snapshot has a name the exclusion rules
admit (dotfiles only with an `.html` suffix, never `node_modules`), and on a
concrete listing `.env` and `node_modules` are absent while `.notes.html`
and `a.txt` are present. -/
theorem c9_dotfile_policy :
    (∀ (e : FS) (pre : String), ∀ i ∈ getFileTree e pre, NamesOk i) ∧
    getFileTree (FS.dir true (FS.cons ".env" (FS.file 1) (FS.cons ".notes.html" (FS.file 2)
        (FS.cons "node_modules" (FS.dir true FS.nil) (FS.cons "a.txt" (FS.file 3) FS.nil))))) ""
      = [Item.fileItem ".notes.html" ".notes.html" ".html" 2,
         Item.fileItem "a.txt" "a.txt" ".txt" 3] := by
  constructor
  · intro e pre i hi
    match e with
    | .dir true entries => exact scanItems_namesOk entries pre i (mem_sortItems.mp hi)
    | .dir false entries => simp [getFileTree] at hi
    | .statError => simp [getFileTree] at hi
    | .file s => simp [getFileTree] at hi
    | .nil => simp [getFileTree] at hi
    | .cons a b c => simp [getFileTree] at hi
  · rfl

/-- Witness for C9: the `.notes.html` node of the concrete snapshot above,
certified admissible by the theorem. -/
theorem c9_dotfile_policy_witness :
    NamesOk (Item.fileItem ".notes.html" ".notes.html" ".html" 2) := by
  refine c9_dotfile_policy.1 (FS.dir true (FS.cons ".env" (FS.file 1)
      (FS.cons ".notes.html" (FS.file 2) (FS.cons "node_modules" (FS.dir true FS.nil)
        (FS.cons "a.txt" (FS.file 3) FS.nil))))) "" _ ?_
  rw [c9_dotfile_policy.2]
  exact List.mem_cons_self _ _

/-- C7 counterexample: in a directory whose listing is `a.txt` (readable),
`b.txt` (statSync throws), `c.txt` (readable), the snapshot holds only
`a.txt` — the readable sibling `c.txt` listed after the unreadable entry is
dropped, so an unreadable entry is not silently omitted with all readable
siblings kept. -/
theorem c7_unreadable_entry_counterexample :
    getFileTree (FS.dir true (FS.cons "a.txt" (FS.file 1) (FS.cons "b.txt" FS.statError
        (FS.cons "c.txt" (FS.file 2) FS.nil)))) ""
      = [Item.fileItem "a.txt" "a.txt" ".txt" 1] := rfl

/-- C7 amended: a stat-failing entry aborts the rest of its parent's loop —
the items produced are exactly those of the listing before it, everything
after it is dropped; and a directory child whose own listing is unreadable
still appears, with empty children, without disturbing its siblings.  The
scan itself never throws. -/
theorem c7_unreadable_entry_amended (before after rest : FS) (nm nm2 pre : String)
    (hclean : noAbort before = true) (hvis : entrySkipped nm = false)
    (hvis2 : entrySkipped nm2 = false) :
    scanItems (listingAppend before (FS.cons nm FS.statError after)) pre
      = scanItems before pre ∧
    scanItems (FS.cons nm2 (FS.dir false after) rest) pre
      = Item.dirItem nm2 (joinPath pre nm2) [] :: scanItems rest pre := by
  obtain ⟨hv1, hv2⟩ := entrySkipped_false hvis
  obtain ⟨hw1, hw2⟩ := entrySkipped_false hvis2
  constructor
  · clear hvis2 hw1 hw2 nm2
    induction before with
    | cons nm' ent' rest' ihe ihr =>
      simp only [noAbort, Bool.and_eq_true] at hclean
      obtain ⟨hc1, hc2⟩ := hclean
      by_cases hskip : (startsWithB nm' "." && !endsWithB nm' ".html") = true
      · simp [listingAppend, scanItems, hskip, ihr hc2]
      · by_cases hnm : nm' = "node_modules"
        · simp [listingAppend, scanItems, hskip, hnm, ihr hc2]
        · have hent : isStatErr ent' = false := by
            rcases Bool.or_eq_true_iff.mp hc1 with hsk | hns
            · exact absurd hsk (by
                simp [entrySkipped, Bool.or_eq_true_iff, hskip, hnm])
            · simpa using hns
          cases ent' with
          | statError => simp [isStatErr] at hent
          | file s => simp [listingAppend, scanItems, hskip, hnm, ihr hc2]
          | dir r es => simp [listingAppend, scanItems, hskip, hnm, ihr hc2]
          | nil => simp [listingAppend, scanItems, hskip, hnm, ihr hc2]
          | cons a b c => simp [listingAppend, scanItems, hskip, hnm, ihr hc2]
    | statError => simp [listingAppend, scanItems, hv1, hv2]
    | file s => simp [listingAppend, scanItems, hv1, hv2]
    | dir r es => simp [listingAppend, scanItems, hv1, hv2]
    | nil => simp [listingAppend, scanItems, hv1, hv2]
  · simp [scanItems, hw1, hw2]

/-- Witness for the amended C7 on the counterexample's listing: the scan of
`a.txt`, unreadable `b.txt`, `c.txt` equals the scan of just `a.txt`, and an
unreadable subdirectory `sub` appears with empty children. -/
theorem c7_unreadable_entry_witness :
    scanItems (listingAppend (FS.cons "a.txt" (FS.file 1) FS.nil)
        (FS.cons "b.txt" FS.statError (FS.cons "c.txt" (FS.file 2) FS.nil))) ""
      = scanItems (FS.cons "a.txt" (FS.file 1) FS.nil) "" ∧
    scanItems (FS.cons "sub" (FS.dir false (FS.cons "c.txt" (FS.file 2) FS.nil)) FS.nil) ""
      = Item.dirItem "sub" (joinPath "" "sub") [] :: scanItems FS.nil "" :=
  c7_unreadable_entry_amended (FS.cons "a.txt" (FS.file 1) FS.nil)
    (FS.cons "c.txt" (FS.file 2) FS.nil) FS.nil "b.txt" "sub" ""
    (by decide) (by decide) (by decide)

/-! ### Support lemmas for sizes and relative paths -/

theorem foldl_step_replicate (f : Nat → Char → Nat) (c : Char) (k : Nat)
    (hf : ∀ m, f m c = m + k) :
    ∀ n i : Nat, List.foldl f i (List.replicate n c) = i + n * k := by
  intro n
  induction n with
  | zero => simp
  | succ n ih =>
    intro i
    rw [List.replicate_succ, List.foldl_cons, hf, ih, Nat.succ_mul]
    omega

theorem jsLength_replicate (n : Nat) :
    jsLength (String.mk (List.replicate n 'a')) = n := by
  have h := foldl_step_replicate (fun m c => m + (if c.val < 65536 then 1 else 2)) 'a' 1
    (fun m => by norm_num [show ('a'.val < 65536) from by decide]) n 0
  simpa [jsLength] using h

theorem utf8Len_replicate (n : Nat) :
    utf8Len (String.mk (List.replicate n 'a')) = n := by
  have h := foldl_step_replicate (fun m c => m + c.utf8Size) 'a' 1
    (fun m => by norm_num [show 'a'.utf8Size = 1 from by decide]) n 0
  simpa [utf8Len] using h

theorem bigString_ne_empty : String.mk (List.replicate 50001 'a') ≠ "" := by
  intro h
  have h2 : List.replicate 50001 'a' = ([] : List Char) := congrArg String.data h
  have h3 := congrArg List.length h2
  rw [List.length_replicate, List.length_nil] at h3
  omega

theorem relParts_append (p q : List (List Char)) : relParts p (p ++ q) = q := by
  induction p with
  | nil => simp [relParts]
  | cons a p ih => simp [relParts, ih]

/-! ### Claim theorems for the execution sandbox -/

/-- C2 counterexample: a request rejected for invalid input (missing or
falsy `code` field) still appends its timestamp to the requester's stored
window, so the window does not hold only timestamps of accepted
executions. -/
theorem c2_window_counterexample :
    (pythonExecute [] 1000 none true).1 = ExecOutcome.invalidInput ∧
    (pythonExecute [] 1000 none true).2 = [1000] :=
  ⟨rfl, rfl⟩

/-- C2 amended: the stored window is unchanged by a rate-limited rejection
and otherwise becomes the pruned window plus the new timestamp — so after
pruning it never exceeds 5 entries, but requests rejected later in the
pipeline (invalid input, oversize, failed staging) do extend it. -/
theorem c2_window_invariant (window : List Nat) (now : Nat) (code : Option String)
    (writeOk : Bool) :
    ((pythonExecute window now code writeOk).1 = ExecOutcome.rateLimited →
      (pythonExecute window now code writeOk).2 = window) ∧
    ((pythonExecute window now code writeOk).1 ≠ ExecOutcome.rateLimited →
      (pythonExecute window now code writeOk).2
        = window.filter (fun time => now - time < 60000) ++ [now] ∧
      (pythonExecute window now code writeOk).2.length ≤ 5) := by
  by_cases h5 : 5 ≤ (window.filter (fun time => now - time < 60000)).length
  · refine ⟨fun _ => by simp [pythonExecute, h5], fun hne => absurd (by simp [pythonExecute, h5]) hne⟩
  · have hlen : (window.filter (fun time => now - time < 60000)).length ≤ 4 := by omega
    have hmain : (pythonExecute window now code writeOk).1 ≠ ExecOutcome.rateLimited ∧
        (pythonExecute window now code writeOk).2
          = window.filter (fun time => now - time < 60000) ++ [now] := by
      rcases code with _ | c
      · simp [pythonExecute, h5]
      · by_cases hc : c = ""
        · simp [pythonExecute, h5, hc]
        · by_cases hbig : 50000 < jsLength c
          · simp [pythonExecute, h5, hc, hbig]
          · cases writeOk <;> simp [pythonExecute, h5, hc, hbig]
    refine ⟨fun h => absurd h hmain.1, fun _ => ⟨hmain.2, ?_⟩⟩
    rw [hmain.2]
    simp only [List.length_append, List.length_cons, List.length_nil]
    omega

/-- Witness for the amended C2: an empty-code request at time 7 against an
empty window is stored as `[7]`, within the 5-entry bound. -/
theorem c2_window_invariant_witness :
    (pythonExecute [] 7 (some "") true).2 = [7] ∧
    (pythonExecute [] 7 (some "") true).2.length ≤ 5 := by
  have h := (c2_window_invariant [] 7 (some "") true).2 (by decide)
  simpa using h

theorem pythonExecute_tooLarge_of (c : String) (hne : c ≠ "") (hbig : 50000 < jsLength c) :
    (pythonExecute [] 0 (some c) true).1 = ExecOutcome.tooLarge := by
  simp [pythonExecute, hne, hbig]

/-- C4 counterexample: an ASCII script of 50001 characters occupies 50001
bytes, which does not exceed 50 KiB = 51200, yet the handler rejects it as
too large — the actual bound is 50000 length units, not 51200 bytes. -/
theorem c4_size_counterexample :
    (pythonExecute [] 0 (some (String.mk (List.replicate 50001 'a'))) true).1
      = ExecOutcome.tooLarge ∧
    utf8Len (String.mk (List.replicate 50001 'a')) = 50001 :=
  ⟨pythonExecute_tooLarge_of _ bigString_ne_empty
      (by rw [jsLength_replicate]; omega),
    utf8Len_replicate 50001⟩

/-- C4 amended: once past rate admission and the falsy-code check, a request
is rejected `TooLarge` exactly when the JavaScript string length of the code
(UTF-16 units, the source's `code.length > 50000` test) exceeds 50000; such
a rejection does not depend on whether the scratch file could be written
(it happens before any filesystem work), and a 51201-character ASCII script
— 50 KiB + 1 bytes — is still rejected. -/
theorem c4_size_threshold (window : List Nat) (now : Nat) (c : String) (writeOk : Bool)
    (hadm : (window.filter (fun time => now - time < 60000)).length < 5)
    (hne : c ≠ "") :
    ((pythonExecute window now (some c) writeOk).1 = ExecOutcome.tooLarge
      ↔ 50000 < jsLength c) ∧
    (50000 < jsLength c →
      ∀ w : Bool, (pythonExecute window now (some c) w).1 = ExecOutcome.tooLarge) := by
  have hn : ¬ 5 ≤ (window.filter (fun time => now - time < 60000)).length := by omega
  constructor
  · constructor
    · intro h
      by_cases hbig : 50000 < jsLength c
      · exact hbig
      · exfalso
        cases writeOk <;> simp [pythonExecute, hn, hne, hbig] at h
    · intro hbig
      simp [pythonExecute, hn, hne, hbig]
  · intro hbig w
    simp [pythonExecute, hn, hne, hbig]

/-- Witness for the amended C4 at a small input: a one-character script is
not rejected as too large. -/
theorem c4_size_threshold_witness :
    ((pythonExecute [] 0 (some "x") true).1 = ExecOutcome.tooLarge
      ↔ 50000 < jsLength "x") :=
  (c4_size_threshold [] 0 "x" true (by decide) (by decide)).1

/-- C5: five stored timestamps inside the trailing minute make the next
request rate-limited with the stored window untouched (so nothing is
spawned for it), while a valid small request whose clock is at least 60
seconds past one stored timestamp is admitted and spawns. -/
theorem c5_rate_limit (ts : List Nat) (now later t1 : Nat) (c : String)
    (hlen : ts.length = 5) (hin : ∀ t ∈ ts, now - t < 60000)
    (ht1 : t1 ∈ ts) (hout : 60000 ≤ later - t1)
    (hc : c ≠ "") (hsize : jsLength c ≤ 50000) :
    (pythonExecute ts now (some c) true).1 = ExecOutcome.rateLimited ∧
    (pythonExecute ts now (some c) true).2 = ts ∧
    (pythonExecute ts later (some c) true).1 = ExecOutcome.spawned := by
  have hfull : ts.filter (fun time => now - time < 60000) = ts :=
    List.filter_eq_self.mpr (fun a ha => by simpa using hin a ha)
  have h5 : 5 ≤ (ts.filter (fun time => now - time < 60000)).length := by
    rw [hfull, hlen]
  have hlt : (ts.filter (fun time => later - time < 60000)).length < 5 := by
    have h := length_filter_lt_of_mem (p := fun time => decide (later - time < 60000)) ht1
      (by simp only [decide_eq_false_iff_not]; omega)
    omega
  have hn : ¬ 5 ≤ (ts.filter (fun time => later - time < 60000)).length := by omega
  have hbig : ¬ 50000 < jsLength c := by omega
  exact ⟨by simp [pythonExecute, h5], by simp [pythonExecute, h5],
    by simp [pythonExecute, hn, hc, hbig]⟩

/-- Witness for C5: five timestamps `0` at time 5 reject the sixth request
and leave the window alone; at time 60000 the window has aged out and the
request spawns. -/
theorem c5_rate_limit_witness :
    (pythonExecute [0, 0, 0, 0, 0] 5 (some "x") true).1 = ExecOutcome.rateLimited ∧
    (pythonExecute [0, 0, 0, 0, 0] 5 (some "x") true).2 = [0, 0, 0, 0, 0] ∧
    (pythonExecute [0, 0, 0, 0, 0] 60000 (some "x") true).1 = ExecOutcome.spawned :=
  c5_rate_limit [0, 0, 0, 0, 0] 5 60000 0 "x" (by decide) (by decide) (by decide)
    (by decide) (by decide) (by decide)

/-! ### Claim theorems for the child-process callbacks -/

/-- C6: both termination callbacks of the execution route always attempt
removal of the scratch file first, and the response either callback sends is
the same whether or not that removal succeeds — a cleanup failure is only
warned about, never reflected in the result. -/
theorem c6_cleanup_always (unlinkOk : Bool) (output stderr : String) (exitCode : Option Int)
    (errCode errMessage : String) :
    (pythonOnClose unlinkOk output stderr exitCode).attemptedCleanup = true ∧
    (pythonOnError unlinkOk output stderr errCode errMessage).attemptedCleanup = true ∧
    (pythonOnClose unlinkOk output stderr exitCode).response
      = (pythonOnClose true output stderr exitCode).response ∧
    (pythonOnError unlinkOk output stderr errCode errMessage).response
      = (pythonOnError true output stderr errCode errMessage).response :=
  ⟨rfl, rfl, rfl, rfl⟩

/-- C3 counterexample: on the timeout path (the `'error'` callback with
`err.code === 'ETIMEDOUT'`, the branch the source labels `// Handle
timeout`), the response's `error` field is the fixed timeout message and the
captured stderr text appears in no field — the stderr captured up to
termination is discarded, not returned. -/
theorem c3_timeout_counterexample :
    (pythonOnError true "partial out" "partial err" "ETIMEDOUT" "m").response.output
      = "partial out" ∧
    (pythonOnError true "partial out" "partial err" "ETIMEDOUT" "m").response.error
      = "Python script execution timed out (30 second limit)" ∧
    (pythonOnError true "partial out" "partial err" "ETIMEDOUT" "m").response.error
      ≠ "partial err" := by
  refine ⟨rfl, rfl, ?_⟩
  decide

/-- C3 amended: a timeout reported through the `'error'` callback with code
`ETIMEDOUT` yields `success = false`, HTTP 408 with the fixed timeout
message (the timeout failure kind), the partial stdout captured so far, and
an attempted scratch-file removal (the file is gone whenever the unlink
succeeds) — but the captured stderr is replaced by the fixed message rather
than returned. -/
theorem c3_timeout_result (unlinkOk : Bool) (output stderr errMessage : String) :
    (pythonOnError unlinkOk output stderr "ETIMEDOUT" errMessage).response.success = false ∧
    (pythonOnError unlinkOk output stderr "ETIMEDOUT" errMessage).response.status = 408 ∧
    (pythonOnError unlinkOk output stderr "ETIMEDOUT" errMessage).response.error
      = "Python script execution timed out (30 second limit)" ∧
    (pythonOnError unlinkOk output stderr "ETIMEDOUT" errMessage).response.output = output ∧
    (pythonOnError unlinkOk output stderr "ETIMEDOUT" errMessage).attemptedCleanup = true ∧
    (pythonOnError true output stderr "ETIMEDOUT" errMessage).removedFile = true :=
  ⟨rfl, rfl, rfl, rfl, rfl, rfl⟩

/-! ### Claim theorems for the change watcher -/

/-- C1 counterexample: the `fileChange` payload broadcast for an absolute
watcher path carries that absolute path verbatim in its `path` field, even
though its `relativePath` field is properly root-relative — so a field of
the emitted payload does expose the host's absolute filesystem path. -/
theorem c1_absolute_path_counterexample :
    (handleFileChange (fun _ => some "text") "/home/user/project" "change"
        "/home/user/project/notes.txt").path = "/home/user/project/notes.txt" ∧
    startsWithB "/home/user/project/notes.txt" "/" = true ∧
    (handleFileChange (fun _ => some "text") "/home/user/project" "change"
        "/home/user/project/notes.txt").relativePath = "notes.txt" :=
  ⟨rfl, rfl, by decide⟩

/-- C1 amended: for any event on a path below the watched root, the
broadcast payload's `relativePath` is the root-relative remainder of the
path (never absolute), but the payload's `path` field is the watcher's raw
path itself — absolute whenever the watcher reports absolute paths. -/
theorem c1_payload_paths (readFileContent : String → Option String)
    (watchDir event filePath : String) (tail : List (List Char))
    (hsub : pathParts filePath = pathParts watchDir ++ tail) :
    (handleFileChange readFileContent watchDir event filePath).relativePath
      = joinParts tail ∧
    (handleFileChange readFileContent watchDir event filePath).path = filePath := by
  constructor
  · show pathRelative watchDir filePath = joinParts tail
    unfold pathRelative
    rw [hsub, relParts_append]
  · rfl

/-- Witness for the amended C1 at a concrete watched root. -/
theorem c1_payload_paths_witness :
    (handleFileChange (fun _ => none) "/srv/root" "add" "/srv/root/a.txt").relativePath
      = joinParts ["a.txt".data] ∧
    (handleFileChange (fun _ => none) "/srv/root" "add" "/srv/root/a.txt").path
      = "/srv/root/a.txt" :=
  c1_payload_paths (fun _ => none) "/srv/root" "add" "/srv/root/a.txt" ["a.txt".data]
    (by decide)

/-! ### Claim theorems for the file route -/

/-- C10: the hidden-file check of `/api/file/*` inspects only the final path
component: a request whose basename does not begin with `.` is never
rejected by the hidden-file check (even under a hidden ancestor directory),
while a request whose basename begins with `.` and does not end in `.html`
is rejected as hidden no matter what the filesystem holds — before any
read happens, as the result's independence from the filesystem oracle
shows. -/
theorem c10_hidden_check (fsRead fsRead2 : String → Option (Option String))
    (watchDir p : String) :
    (startsWithB (basename p) "." = false →
      apiFileGet fsRead watchDir p ≠ FileApiResult.hiddenDenied) ∧
    (startsWithB (basename p) "." = true → endsWithB (basename p) ".html" = false →
      apiFileGet fsRead watchDir p = FileApiResult.hiddenDenied ∧
      apiFileGet fsRead watchDir p = apiFileGet fsRead2 watchDir p) := by
  constructor
  · intro h
    unfold apiFileGet
    simp only [h, Bool.false_and, Bool.false_eq_true, if_false]
    split
    · simp
    · cases fsRead (joinPath watchDir p) with
      | none => simp
      | some o => cases o <;> simp
  · intro h1 h2
    constructor <;> simp [apiFileGet, h1, h2]

/-- Witness for C10: `.ssh/config` (hidden ancestor, visible basename)
passes the hidden-file check, while `.env` is rejected as hidden. -/
theorem c10_hidden_check_witness :
    apiFileGet (fun _ => none) "/w" ".ssh/config" ≠ FileApiResult.hiddenDenied ∧
    apiFileGet (fun _ => none) "/w" ".env" = FileApiResult.hiddenDenied :=
  ⟨(c10_hidden_check (fun _ => none) (fun _ => none) "/w" ".ssh/config").1 (by decide),
   ((c10_hidden_check (fun _ => none) (fun _ => none) "/w" ".env").2 (by decide)
     (by decide)).1⟩

end QuickView
